import Mathlib

/-!
Verification of the catalogue pipeline of `server/src/catalog.js`
(schema resolution, identifier and date normalisation, record linkage,
incremental classification, taxonomy recompute, profile aggregation).

All uploaded cells are stored as VARCHAR by the upload route of
`server/src/index.js`, so every SQL expression below is modelled on the
string form of the cell (a SQL NULL is `Option.none`).  Amounts (SQL
DOUBLE) are modelled as exact rationals, and the decimal value of a cell
as an exact scaled integer; calendar dates are modelled as day numbers of
the proleptic Gregorian calendar.

The file is organised as definitions (shallow embedding of the source)
followed by theorems.
-/

namespace Procure

/-! ## Definitions

### Identifier normalisation (catalog.js lines 86-115)

normAlnum  is NULLIF(regexp_replace(upper(CAST(e AS VARCHAR)), regex
non-[0-9A-Z], '', 'g'), ''); normNum strips every non-digit and then the
leading zeros, with NULLIF on the empty string; normOrderInt and
normLineInt are TRY_CAST(regexp_extract(e, first digit run) AS BIGINT). -/

def isUpperAlnum (c : Char) : Bool :=
  c.isDigit || ('A' ≤ c && c ≤ 'Z')

/-- Alphanumeric join key: uppercase, keep only `[0-9A-Z]`, empty becomes SQL NULL. -/
def normAlnum (s : List Char) : Option (List Char) :=
  let t := (s.map Char.toUpper).filter isUpperAlnum
  if t.isEmpty then none else some t

/-- Numeric join key: keep only digits, strip leading zeros, empty becomes SQL NULL. -/
def normNum (s : List Char) : Option (List Char) :=
  let t := (s.filter Char.isDigit).dropWhile (fun c => c == '0')
  if t.isEmpty then none else some t

/-- First maximal run of digits in the string (`regexp_extract` of `([0-9]+)`). -/
def firstDigitRun : List Char → List Char
  | [] => []
  | c :: rest => if c.isDigit then c :: rest.takeWhile Char.isDigit else firstDigitRun rest

def digitsToNat (s : List Char) : Nat :=
  s.foldl (fun n c => n * 10 + (c.toNat - 48)) 0

/-- Model of `TRY_CAST(digits AS BIGINT)`: NULL on the empty string or on int64 overflow. -/
def tryCastBigint (digits : List Char) : Option Nat :=
  if digits.isEmpty then none
  else if digitsToNat digits < 2 ^ 63 then some (digitsToNat digits) else none

/-- Robust integer order key (`PO-6903033`, `6903033.0`, `006903033` all give 6903033). -/
def normOrderInt (s : List Char) : Option Nat :=
  tryCastBigint (firstDigitRun s)

/-- Robust integer line key (`1.0` gives 1, `Ligne 01` gives 1). -/
def normLineInt (s : List Char) : Option Nat :=
  tryCastBigint (firstDigitRun s)

/-! ### Order-number join predicate (catalog.js lines 566-577) -/

/-- Model of `RIGHT(s, n)`: the last `n` characters (the whole string when `n`
exceeds its length). -/
def sqlRight (s : List Char) (n : Nat) : List Char :=
  s.drop (s.length - n)

/-- Alnum-key equality disjunct of the order-number join predicate. -/
def orderJoinAlnumPath (a d : String) : Bool :=
  match normAlnum a.data, normAlnum d.data with
  | some x, some y => x == y
  | _, _ => false

/-- Numeric-key disjunct: equality or suffix containment in either direction. -/
def orderJoinNumPath (a d : String) : Bool :=
  match normNum a.data, normNum d.data with
  | some x, some y => x == y || sqlRight y x.length == x || sqlRight x y.length == y
  | _, _ => false

/-- Raw-string equality disjunct. -/
def orderJoinRawPath (a d : String) : Bool :=
  a == d

/-- Integer-key equality disjunct (`normOrderInt` on both sides). -/
def orderJoinIntPath (a d : String) : Bool :=
  match normOrderInt a.data, normOrderInt d.data with
  | some x, some y => x == y
  | _, _ => false

/-- Full order-number join predicate of the payment-linkage join. -/
def orderJoin (a d : String) : Bool :=
  orderJoinAlnumPath a d || orderJoinNumPath a d || orderJoinRawPath a d || orderJoinIntPath a d

/-! ### Line-number join predicate (catalog.js lines 578-584) -/

structure LineKeys where
  raw : String
  alnum : Option (List Char)
  num : Option (List Char)
  int : Option Nat

def lineKeysOf (s : String) : LineKeys :=
  { raw := s, alnum := normAlnum s.data, num := normNum s.data, int := normLineInt s.data }

/-- Line-number join predicate between a purchase-order row `a` and a
disbursement row `d`, in the source's disjunct order. -/
def lineJoin (a d : LineKeys) : Bool :=
  (d.alnum.isSome && a.alnum.isSome && a.alnum == d.alnum) ||
  (d.num.isSome && a.num.isSome && a.num == d.num) ||
  (a.raw == d.raw) ||
  (a.int.isSome && d.int.isSome && a.int == d.int) ||
  (d.alnum == none && d.num == none && d.int == none)

/-! ### Date normalisation (catalog.js lines 118-129, `sqlDateFromAny`)

The SQL expression is a COALESCE over, in order: TRY_CAST to DATE,
TRY_CAST to TIMESTAMP truncated to a date, TRY_STRPTIME with formats
`%Y-%m-%d`, `%d/%m/%Y`, `%d-%m-%Y`, and finally
DATE 1899-12-30 + CAST(ROUND(CAST(e AS DOUBLE)) AS INTEGER).
The final branch uses a plain CAST (not TRY_CAST), so a cell that is
neither a date nor numeric raises a conversion error, modelled as
`Except.error`. -/

def isLeap (y : Nat) : Bool :=
  (y % 4 == 0 && y % 100 != 0) || y % 400 == 0

def daysInMonth (y m : Nat) : Nat :=
  if m = 2 then (if isLeap y then 29 else 28)
  else if m = 4 ∨ m = 6 ∨ m = 9 ∨ m = 11 then 30 else 31

def validYMD (y m d : Nat) : Bool :=
  1 ≤ y && y ≤ 9999 && 1 ≤ m && m ≤ 12 && 1 ≤ d && d ≤ daysInMonth y m

/-- Day number of a proleptic-Gregorian calendar date (days since 0000-03-01). -/
def daysFromCivil (y m d : Nat) : Nat :=
  let yr := if m ≤ 2 then y - 1 else y
  let era := yr / 400
  let yoe := yr % 400
  let mp := if 2 < m then m - 3 else m + 9
  let doy := (153 * mp + 2) / 5 + d - 1
  let doe := yoe * 365 + yoe / 4 - yoe / 100 + doy
  era * 146097 + doe

def trimSpaces (s : List Char) : List Char :=
  ((s.dropWhile (fun c => c == ' ')).reverse.dropWhile (fun c => c == ' ')).reverse

/-- Split a character list on a separator character. -/
def splitChar (sep : Char) : List Char → List (List Char)
  | [] => [[]]
  | c :: t =>
    if c = sep then [] :: splitChar sep t
    else
      match splitChar sep t with
      | [] => [[c]]
      | p :: ps => (c :: p) :: ps

def parseNatBounded (s : List Char) (maxLen : Nat) : Option Nat :=
  if s.isEmpty || decide (maxLen < s.length) || !(s.all Char.isDigit) then none
  else some (digitsToNat s)

def mkValidDate (y m d : Nat) : Option (Nat × Nat × Nat) :=
  if validYMD y m d then some (y, m, d) else none

/-- Year, month and day components (at most 4/2/2 digits) with validity check. -/
def dateFromParts (ys ms ds : List Char) : Option (Nat × Nat × Nat) :=
  match parseNatBounded ys 4, parseNatBounded ms 2, parseNatBounded ds 2 with
  | some y, some m, some d => mkValidDate y m d
  | _, _, _ => none

/-- Model of `TRY_CAST(varchar AS DATE)`: trim spaces, then an ISO `Y-M-D` form. -/
def tryCastDate (s : List Char) : Option (Nat × Nat × Nat) :=
  match splitChar '-' (trimSpaces s) with
  | [ys, ms, ds] => dateFromParts ys ms ds
  | _ => none

def timePartOk (t : List Char) : Bool :=
  !t.isEmpty && t.all (fun c => c.isDigit || c == ':' || c == '.')

/-- Model of `CAST(TRY_CAST(varchar AS TIMESTAMP) AS DATE)`: an ISO date with
an optional time-of-day suffix, truncated to its date. -/
def tryCastTimestampAsDate (s : List Char) : Option (Nat × Nat × Nat) :=
  match splitChar ' ' (trimSpaces s) with
  | [d] => tryCastDate d
  | [d, t] => if timePartOk t then tryCastDate d else none
  | _ => none

/-- Model of `TRY_STRPTIME` with format `%Y-%m-%d` (then truncated to a date). -/
def strptimeYMD (s : List Char) : Option (Nat × Nat × Nat) :=
  match splitChar '-' s with
  | [ys, ms, ds] => dateFromParts ys ms ds
  | _ => none

/-- Model of `TRY_STRPTIME` with format `%d/%m/%Y` or `%d-%m-%Y` (`sep` is the
separator character). -/
def strptimeDMY (sep : Char) (s : List Char) : Option (Nat × Nat × Nat) :=
  match splitChar sep s with
  | [ds, ms, ys] => dateFromParts ys ms ds
  | _ => none

/-- Exact decimal number `mant * 10 ^ exp`, the value of `CAST(varchar AS DOUBLE)`. -/
structure DecNum where
  mant : Int
  exp : Int

/-- Model of `CAST(varchar AS DOUBLE)`: sign, digits, optional fraction,
optional exponent; `none` when the text is not numeric (the SQL cast then
raises a conversion error). -/
def parseDouble (s0 : List Char) : Option DecNum :=
  let s := trimSpaces s0
  let su : Int × List Char :=
    match s with
    | '-' :: rest => (-1, rest)
    | '+' :: rest => (1, rest)
    | _ => (1, s)
  let sgn := su.1
  let u := su.2
  let ip := u.takeWhile Char.isDigit
  let r1 := u.drop ip.length
  let fr : List Char × List Char :=
    match r1 with
    | '.' :: rest => (rest.takeWhile Char.isDigit, rest.drop (rest.takeWhile Char.isDigit).length)
    | _ => ([], r1)
  let fp := fr.1
  let r2 := fr.2
  if ip.isEmpty && fp.isEmpty then none
  else
    let mant : Int := sgn * (digitsToNat ip * 10 ^ fp.length + digitsToNat fp)
    match r2 with
    | [] => some { mant, exp := -(fp.length : Int) }
    | e :: rest =>
      if e == 'e' || e == 'E' then
        let er : Int × List Char :=
          match rest with
          | '-' :: rr => (-1, rr)
          | '+' :: rr => (1, rr)
          | _ => (1, rest)
        if er.2.isEmpty || !(er.2.all Char.isDigit) then none
        else some { mant, exp := er.1 * (digitsToNat er.2 : Int) - (fp.length : Int) }
      else none

/-- Model of `ROUND`: nearest integer, halves away from zero, of `mant * 10 ^ exp`. -/
def decRound (v : DecNum) : Int :=
  if 0 ≤ v.exp then v.mant * (10 : Int) ^ v.exp.toNat
  else
    let d : Nat := 10 ^ (-v.exp).toNat
    let q : Nat := (2 * v.mant.natAbs + d) / (2 * d)
    if 0 ≤ v.mant then (q : Int) else -(q : Int)

def civilDay (ymd : Nat × Nat × Nat) : Int :=
  (daysFromCivil ymd.1 ymd.2.1 ymd.2.2 : Int)

/-- Day number of the spreadsheet serial epoch `DATE '1899-12-30'`. -/
def epochSerial : Int :=
  (daysFromCivil 1899 12 30 : Int)

/-- Final COALESCE branch:
DATE 1899-12-30 + CAST(ROUND(CAST(e AS DOUBLE)) AS INTEGER).
A non-numeric cell or an int32 overflow raises a conversion error. -/
def serialBranch (s : String) : Except Unit (Option Int) :=
  match parseDouble s.data with
  | none => .error ()
  | some v =>
    let r := decRound v
    if -2147483648 ≤ r ∧ r ≤ 2147483647 then .ok (some (epochSerial + r)) else .error ()

/-- Full date-normalisation expression `sqlDateFromAny` of the source. -/
def sqlDateFromAny (cell : Option String) : Except Unit (Option Int) :=
  match cell with
  | none => .ok none
  | some s =>
    match tryCastDate s.data with
    | some d => .ok (some (civilDay d))
    | none =>
      match tryCastTimestampAsDate s.data with
      | some d => .ok (some (civilDay d))
      | none =>
        match strptimeYMD s.data with
        | some d => .ok (some (civilDay d))
        | none =>
          match strptimeDMY '/' s.data with
          | some d => .ok (some (civilDay d))
          | none =>
            match strptimeDMY '-' s.data with
            | some d => .ok (some (civilDay d))
            | none => serialBranch s

/-- Modelled from the spec: date normalisation attempts, in order, a direct
date parse, a timestamp parse truncated to a date, explicit parses as
`YYYY-MM-DD`, `DD/MM/YYYY` and `DD-MM-YYYY`, the first success winning, and
otherwise interprets the value as a spreadsheet serial number of days added to
the epoch 1899-12-30. -/
def dateNormChain (cell : Option String) : Except Unit (Option Int) :=
  match cell with
  | none => .ok none
  | some s =>
    match [tryCastDate s.data, tryCastTimestampAsDate s.data, strptimeYMD s.data,
           strptimeDMY '/' s.data, strptimeDMY '-' s.data].findSome? id with
    | some d => .ok (some (civilDay d))
    | none => serialBranch s

instance exceptDecEq {e a : Type} [DecidableEq e] [DecidableEq a] :
    DecidableEq (Except e a) := fun x y =>
  match x, y with
  | .ok v, .ok w =>
    if h : v = w then .isTrue (by rw [h]) else .isFalse (fun hc => h (Except.ok.inj hc))
  | .error v, .error w =>
    if h : v = w then .isTrue (by rw [h]) else .isFalse (fun hc => h (Except.error.inj hc))
  | .ok _, .error _ => .isFalse (fun hc => Except.noConfusion hc)
  | .error _, .ok _ => .isFalse (fun hc => Except.noConfusion hc)

/-! ### Column resolution and table role scoring (catalog.js lines 54-184)

`lowerDeaccent` models `s.normalize("NFD").replace(combining marks, "")`
followed by `toLowerCase()`; for the precomposed Latin letters that occur in
spreadsheet headers this is a character-wise map to the base letter. -/

def deaccentChar : Char → Char
  | 'à' | 'â' | 'ä' | 'á' | 'ã' => 'a'
  | 'é' | 'è' | 'ê' | 'ë' => 'e'
  | 'î' | 'ï' | 'í' => 'i'
  | 'ô' | 'ö' | 'ó' => 'o'
  | 'ù' | 'û' | 'ü' | 'ú' => 'u'
  | 'ç' => 'c'
  | 'À' | 'Â' | 'Ä' => 'A'
  | 'É' | 'È' | 'Ê' | 'Ë' => 'E'
  | 'Î' | 'Ï' => 'I'
  | 'Ô' | 'Ö' => 'O'
  | 'Ù' | 'Û' | 'Ü' => 'U'
  | 'Ç' => 'C'
  | c => c

def lowerDeaccent (s : String) : String :=
  String.mk (s.data.map (fun c => (deaccentChar c).toLower))

/-- Substring containment, the model of JavaScript `hay.includes(needle)`. -/
def containsSub (needle : List Char) : List Char → Bool
  | [] => needle.isEmpty
  | c :: t => needle.isPrefixOf (c :: t) || containsSub needle t

/-- One column of an uploaded table's schema entry: normalised `name` and the
original human header label. -/
structure SchemaCol where
  name : String
  original : String
deriving DecidableEq

/-- The uploaded schema: a mapping from table name to its column list. -/
abbrev Schema := List (String × List SchemaCol)

structure PrepCol where
  norm : String
  orig : String
  name : String
deriving DecidableEq

def prepCols (cols : List SchemaCol) : List PrepCol :=
  cols.map fun c => { norm := lowerDeaccent c.name, orig := lowerDeaccent c.original, name := c.name }

def schemaCols (schema : Schema) (table : String) : List SchemaCol :=
  (schema.lookup table).getD []

/-- One alias: exact match on the original label, then on the normalised name,
then containment in the original label, then containment in the normalised
name (catalog.js lines 66-74). -/
def resolveAlias (cols : List PrepCol) (a : String) : Option PrepCol :=
  match cols.find? (fun c => c.orig == a) with
  | some h => some h
  | none =>
    match cols.find? (fun c => c.norm == a) with
    | some h => some h
    | none =>
      match cols.find? (fun c => containsSub a.data c.orig.data) with
      | some h => some h
      | none => cols.find? (fun c => containsSub a.data c.norm.data)

/-- Model of `resolveByAliases`: the first alias (in order) that hits any tier
wins; the resolved physical column name is returned. -/
def resolveByAliases (schema : Schema) (table : String) (aliases : List String) : Option String :=
  aliases.findSome? fun al =>
    (resolveAlias (prepCols (schemaCols schema table)) (lowerDeaccent al)).map (fun c => c.name)

/-- The `COLUMN_ALIASES.achats` table (catalog.js lines 9-17), in source order. -/
def achatsAliases : List (String × List String) :=
  [("order_no", ["Nº de commande", "N° de commande", "N° Commande", "No Commande",
     "Numero de commande", "Numéro de commande", "N° commande", "Commande"]),
   ("line_no", ["Nº de ligne de commande", "N° ligne commande", "N° Ligne Commande",
     "No Ligne Commande", "Ligne", "N° ligne", "N° Ligne", "N° ligne de commande"]),
   ("type_ligne", ["Type de la ligne de commande", "Type ligne", "Type de ligne",
     "Nature de ligne"]),
   ("desc_cmd", ["Description de la commande", "Description commande", "Description",
     "Objet", "Objet de la commande", "Intitulé", "Intitulé de la commande"]),
   ("desc_line", ["Description de la ligne", "Description Ligne", "Détail de ligne",
     "Libellé de ligne"]),
   ("fourn", ["Nom du fournisseur", "Fournisseur", "Nom fournisseur",
     "Raison sociale fournisseur", "N° du fournisseur", "Code fournisseur"]),
   ("date_cmd", ["Date d\x27approbation", "Date de validation", "Date de création",
     "Date promise", "Date commande", "Date d\x27engagement"])]

/-- The `COLUMN_ALIASES.decs` table (catalog.js lines 18-23). -/
def decsAliases : List (String × List String) :=
  [("order_no", ["N° Commande", "N° commande", "No Commande", "Commande",
     "Numero de commande"]),
   ("line_no", ["N° Ligne Commande", "N° ligne commande", "No Ligne Commande", "Ligne",
     "N° ligne"]),
   ("date_pay", ["Date règlement", "Date reglement", "Date de règlement",
     "Date de reglement", "Date paiement", "Date de paiement"]),
   ("montant", ["Montant règlement", "Montant reglement", "Montant réglé", "Montant payé",
     "Montant paiement", "Montant"])]

/-- The `COLUMN_ALIASES.details` table (catalog.js lines 24-29). -/
def detailsAliases : List (String × List String) :=
  [("order_no", ["N° Commande", "N° commande", "No Commande", "Commande"]),
   ("line_no", ["N° Ligne Commande", "N° ligne commande", "No Ligne Commande", "Ligne"]),
   ("date_cmd_candidates", ["Date engagement", "Date promesse", "Date estimée règlement",
     "Date estimée reglement", "Date prévue règlement", "Date prévue reglement",
     "Date commande", "Date de commande"]),
   ("desc_line", ["Description Ligne", "Description de la ligne", "Libellé de ligne",
     "Détail de ligne"])]

/-- Association lookup, the model of JavaScript object property access. -/
def alookup {b : Type} (k : String) : List (String × b) → Option b
  | [] => none
  | e :: rest => if e.1 = k then some e.2 else alookup k rest

/-- The key filter of `scoreTableForRole` (catalog.js line 139): only these
logical fields take part in scoring. -/
def scoringKeys : List String :=
  ["order_no", "line_no", "date_cmd", "date_pay", "montant", "desc_cmd", "desc_line",
   "type_ligne"]

structure RoleScore where
  score : Nat
  found : List (String × String)
deriving DecidableEq

def scoreStep (schema : Schema) (table : String) (acc : RoleScore) (kv : String × List String) :
    RoleScore :=
  match resolveByAliases schema table kv.2 with
  | some col => { score := acc.score + 2, found := acc.found ++ [(kv.1, col)] }
  | none => acc

/-- Model of `scoreTableForRole` (catalog.js lines 137-150): +2 per resolvable
scored field, +2 if `montant` resolved, +1 if `date_pay` resolved, +1 if
`desc_cmd` or `desc_line` resolved. -/
def scoreTableForRole (schema : Schema) (table : String)
    (roleAliases : List (String × List String)) : RoleScore :=
  let neededGroups := roleAliases.filter (fun kv => scoringKeys.contains kv.1)
  let base := neededGroups.foldl (scoreStep schema table) { score := 0, found := [] }
  let s1 := if (alookup "montant" base.found).isSome then base.score + 2 else base.score
  let s2 := if (alookup "date_pay" base.found).isSome then s1 + 1 else s1
  let s3 := if (alookup "desc_cmd" base.found).isSome || (alookup "desc_line" base.found).isSome
    then s2 + 1 else s2
  { score := s3, found := base.found }

structure ScoredTable where
  t : String
  achats : RoleScore
  decs : RoleScore
  details : RoleScore
deriving DecidableEq

def scoreAll (schema : Schema) : List ScoredTable :=
  (schema.map Prod.fst).map fun t =>
    { t := t, achats := scoreTableForRole schema t achatsAliases,
      decs := scoreTableForRole schema t decsAliases,
      details := scoreTableForRole schema t detailsAliases }

/-- Stable insertion of `x` into a descending-sorted list: `x` goes before the
first element whose key is not larger. -/
def insertDesc (key : ScoredTable → Nat) (x : ScoredTable) : List ScoredTable → List ScoredTable
  | [] => [x]
  | y :: t => if key x < key y then y :: insertDesc key x t else x :: y :: t

/-- Stable descending sort, the model of the JavaScript stable
`sort((a, b) => b[key].score - a[key].score)`. -/
def sortDescBy (key : ScoredTable → Nat) (l : List ScoredTable) : List ScoredTable :=
  l.foldr (insertDesc key) []

/-- Model of `takeBest`: the first not-yet-used table with positive score in
the sorted list. -/
def takeBest (key : ScoredTable → Nat) (used : List String) (l : List ScoredTable) :
    Option ScoredTable :=
  l.find? (fun x => !(used.contains x.t) && decide (0 < key x))

def achatsKey (x : ScoredTable) : Nat := x.achats.score

def decsKey (x : ScoredTable) : Nat := x.decs.score

def detailsKey (x : ScoredTable) : Nat := x.details.score

def usedOfOpt : Option ScoredTable → List String
  | some x => [x.t]
  | none => []

structure PickCore where
  bestA : Option ScoredTable
  bestD : Option ScoredTable
  bestT : Option ScoredTable
deriving DecidableEq

/-- The greedy assignment of `pickTablesBySignature` (catalog.js lines
166-169): purchase orders first, then disbursements, then line details, each
time excluding tables already claimed. -/
def pickCore (scored : List ScoredTable) : PickCore :=
  let bestA := takeBest achatsKey [] (sortDescBy achatsKey scored)
  let bestD := takeBest decsKey (usedOfOpt bestA) (sortDescBy decsKey scored)
  let bestT := takeBest detailsKey (usedOfOpt bestA ++ usedOfOpt bestD)
    (sortDescBy detailsKey scored)
  { bestA := bestA, bestD := bestD, bestT := bestT }

structure RolePick where
  table : String
  cols : List (String × String)
  score : Nat
deriving DecidableEq

structure PickResult where
  achats : Option RolePick
  decs : Option RolePick
  details : Option RolePick
deriving DecidableEq

def toRolePick (x : ScoredTable) (r : RoleScore) : RolePick :=
  { table := x.t, cols := r.found, score := r.score }

/-- Full `pickTablesBySignature` (catalog.js lines 152-184) with its
mandatory-key validation errors. -/
def pickTablesBySignature (schema : Schema) : Except String PickResult :=
  if (schema.map Prod.fst).isEmpty then .error "Aucune table en mémoire."
  else
    let core := pickCore (scoreAll schema)
    let res : PickResult :=
      { achats := core.bestA.map (fun x => toRolePick x x.achats),
        decs := core.bestD.map (fun x => toRolePick x x.decs),
        details := core.bestT.map (fun x => toRolePick x x.details) }
    let hasAchatsKeys := match res.achats with
      | some p => (alookup "order_no" p.cols).isSome && (alookup "line_no" p.cols).isSome
      | none => false
    let hasDecsKeys := match res.decs with
      | some p => (alookup "order_no" p.cols).isSome && (alookup "line_no" p.cols).isSome &&
          (alookup "montant" p.cols).isSome && (alookup "date_pay" p.cols).isSome
      | none => false
    if !hasAchatsKeys then
      .error "Impossible d’identifier la table Achats (colonnes N° commande + N° ligne)."
    else if !hasDecsKeys then
      .error "Impossible d’identifier la table Décaissements (commande/ligne + montant + date paiement)."
    else .ok res

/-- Columns resolved for the scored fields of a role, in group order. -/
def foundOf (schema : Schema) (table : String) (groups : List (String × List String)) :
    List (String × String) :=
  groups.filterMap (fun kv => (resolveByAliases schema table kv.2).map (fun col => (kv.1, col)))

def aliasStrings (role : List (String × List String)) (k : String) : List String :=
  (alookup k role).getD []

/-- Modelled from the spec: the claimed role score — 2 for each of the role's
logical columns that resolves, plus 2 if an amount column resolves, plus 1 if
a payment-date column resolves, plus 1 if any descriptive text column (order
description, line description, or line type) resolves. -/
def roleScoreClaimed (schema : Schema) (t : String) (role : List (String × List String)) : Nat :=
  2 * role.countP (fun kv => (resolveByAliases schema t kv.2).isSome)
  + (if (resolveByAliases schema t (aliasStrings role "montant")).isSome then 2 else 0)
  + (if (resolveByAliases schema t (aliasStrings role "date_pay")).isSome then 1 else 0)
  + (if (resolveByAliases schema t (aliasStrings role "desc_cmd")).isSome
        || (resolveByAliases schema t (aliasStrings role "desc_line")).isSome
        || (resolveByAliases schema t (aliasStrings role "type_ligne")).isSome then 1 else 0)

/-- Concrete schema for C2: `tx` and `tz` resolve order number, line number,
amount and payment date but nothing descriptive; `ty` resolves only an
order-description column (the alias `Objet`). -/
def schemaC2 : Schema :=
  [("tx", [{ name := "no_commande", original := "N° Commande" },
           { name := "no_ligne_commande", original := "N° Ligne Commande" },
           { name := "montant_reglement", original := "Montant règlement" },
           { name := "date_reglement", original := "Date règlement" }]),
   ("tz", [{ name := "no_commande", original := "N° Commande" },
           { name := "no_ligne_commande", original := "N° Ligne Commande" },
           { name := "montant_reglement", original := "Montant règlement" },
           { name := "date_reglement", original := "Date règlement" }]),
   ("ty", [{ name := "objet", original := "Objet" }])]

/-- Concrete schema for the C2 witness: the competitor `tw` resolves order
number, line number and a descriptive column. -/
def schemaC2W : Schema :=
  [("tx", [{ name := "no_commande", original := "N° Commande" },
           { name := "no_ligne_commande", original := "N° Ligne Commande" },
           { name := "montant_reglement", original := "Montant règlement" },
           { name := "date_reglement", original := "Date règlement" }]),
   ("tw", [{ name := "no_commande", original := "N° Commande" },
           { name := "no_ligne_commande", original := "N° Ligne Commande" },
           { name := "objet", original := "Objet" }])]

/-- Concrete schema for C7: a table whose only column is the supplier name. -/
def schemaC7 : Schema :=
  [("tf", [{ name := "nom_du_fournisseur", original := "Nom du fournisseur" }])]

/-- Concrete schema for the C7 witness. -/
def schemaC7W : Schema :=
  [("ta", [{ name := "no_commande", original := "N° Commande" },
           { name := "no_ligne_commande", original := "N° Ligne Commande" },
           { name := "objet", original := "Objet" }]),
   ("tb", [{ name := "no_commande", original := "N° Commande" },
           { name := "no_ligne_commande", original := "N° Ligne Commande" },
           { name := "montant_reglement", original := "Montant règlement" },
           { name := "date_reglement", original := "Date règlement" }])]

def c7wEntry : ScoredTable :=
  { t := "ta", achats := scoreTableForRole schemaC7W "ta" achatsAliases,
    decs := scoreTableForRole schemaC7W "ta" decsAliases,
    details := scoreTableForRole schemaC7W "ta" detailsAliases }

/-! ### Classification loop (catalog.js lines 262-349 and 842-851)

One batch: take the collaborator's parsed JSON (or, when the call threw or
its output failed to parse, a fallback assigning every line of the batch to
the sentinel pair Autre/Autre), merge alias targets, new categories and
assignment pairs into the canonical taxonomy in that order, then persist one
line-classification record per assignment whose split key and trimmed
category and subcategory are all nonempty. -/

abbrev Canon := List (String × List String)

/-- Inner part of `ensureInCanon`: update the first entry with this category,
or append a new entry at the end (`findIndex` + push semantics). -/
def addToCanon : Canon → String → String → Canon
  | [], category, subcategory => [(category, [subcategory])]
  | e :: rest, category, subcategory =>
    if e.1 = category then
      (e.1, if e.2.contains subcategory then e.2 else e.2 ++ [subcategory]) :: rest
    else
      e :: addToCanon rest category subcategory

/-- Model of `ensureInCanon` (catalog.js lines 842-851). -/
def ensureInCanon (canon : Canon) (category subcategory : String) : Canon :=
  if category = "" ∨ subcategory = "" then canon else addToCanon canon category subcategory

/-- Model of JavaScript `String.prototype.trim`. -/
def jsTrim (s : String) : String :=
  String.mk (((s.data.dropWhile Char.isWhitespace).reverse.dropWhile Char.isWhitespace).reverse)

/-- One purchase-order line of a classification batch (the descriptive fields
that only feed the prompt text are omitted). -/
structure ChatLine where
  order_no : String
  line_no : String
  fournisseur : String
deriving DecidableEq

structure Assignment where
  key : String
  category : String
  subcategory : String
deriving DecidableEq

/-- An alias merge from the collaborator; only the target pair is used by the
source (the `from` pair is never applied). -/
structure AliasPair where
  toCategory : String
  toSubcategory : String
deriving DecidableEq

structure LLMClassOut where
  assignments : List Assignment
  aliases : List AliasPair
  new_categories : List (String × List String)
deriving DecidableEq

/-- One row of `catalog_line_map`. -/
structure LineRecord where
  order_no : String
  line_no : String
  category : String
  subcategory : String
  fournisseur : String
deriving DecidableEq

def sepChars : List Char := ['|', '|', '|']

def keyOf (r : ChatLine) : String := r.order_no ++ "|||" ++ r.line_no

/-- The degraded fallback built in the catch handler (catalog.js lines
308-314): every line of the batch is assigned Autre/Autre. -/
def fallbackOut (items : List ChatLine) : LLMClassOut :=
  { assignments := items.map fun it =>
      { key := keyOf it, category := "Autre", subcategory := "Autre" },
    aliases := [], new_categories := [] }

/-- Leftmost occurrence of the separator: prefix before it and rest after it. -/
def breakOnSep (sep : List Char) : List Char → Option (List Char × List Char)
  | [] => none
  | c :: t =>
    if sep.isPrefixOf (c :: t) then some ([], (c :: t).drop sep.length)
    else
      match breakOnSep sep t with
      | some (pre, post) => some (c :: pre, post)
      | none => none

def splitSepFuel (sep : List Char) : Nat → List Char → List (List Char)
  | 0, s => [s]
  | fuel + 1, s =>
    match breakOnSep sep s with
    | none => [s]
    | some (pre, post) => pre :: splitSepFuel sep fuel post

/-- Model of JavaScript `key.split(sep)` for a nonempty separator (the fuel of
one more than the length always suffices, since each step consumes the
separator). -/
def splitSep (sep : List Char) (s : List Char) : List (List Char) :=
  splitSepFuel sep (s.length + 1) s

/-- The destructuring `const [order_no, line_no] = key.split("|||")`; a
missing component is falsy like the empty string. -/
def keyParts (key : String) : String × String :=
  let parts := splitSep sepChars key.data
  (String.mk (parts.getD 0 []), String.mk (parts.getD 1 []))

/-- Alias loop (catalog.js lines 320-324): ensure each nonempty trimmed target
pair is in the canon. -/
def applyAliases (canon : Canon) (aliases : List AliasPair) : Canon :=
  aliases.foldl
    (fun c a =>
      let toC := jsTrim a.toCategory
      let toS := jsTrim a.toSubcategory
      if toC ≠ "" ∧ toS ≠ "" then ensureInCanon c toC toS else c)
    canon

/-- New-category loop (catalog.js lines 325-330). -/
def applyNewCats (canon : Canon) (ncs : List (String × List String)) : Canon :=
  ncs.foldl
    (fun c nc =>
      let cat := jsTrim nc.1
      let subs := (nc.2.map jsTrim).filter (fun s => s ≠ "")
      if cat = "" ∨ subs = [] then c
      else subs.foldl (fun c2 sub => ensureInCanon c2 cat sub) c)
    canon

/-- Assignment self-healing loop (catalog.js lines 331-335). -/
def applyAssignCanon (canon : Canon) (asgs : List Assignment) : Canon :=
  asgs.foldl
    (fun c asg =>
      let cat := jsTrim asg.category
      let sub := jsTrim asg.subcategory
      if cat ≠ "" ∧ sub ≠ "" then ensureInCanon c cat sub else c)
    canon

/-- The insert guard and row construction of the persistence loop (catalog.js
lines 337-348): assignments with an empty split component or empty trimmed
category or subcategory are silently dropped. -/
def recordOfAssignment (chunk : List ChatLine) (asg : Assignment) : Option LineRecord :=
  let p := keyParts asg.key
  let category := jsTrim asg.category
  let subcategory := jsTrim asg.subcategory
  if p.1 = "" ∨ p.2 = "" ∨ category = "" ∨ subcategory = "" then none
  else
    some { order_no := p.1, line_no := p.2, category := category, subcategory := subcategory,
           fournisseur := ((chunk.find? (fun r => keyOf r == asg.key)).map
             (fun r => r.fournisseur)).getD "" }

def recordsOfBatch (chunk : List ChatLine) (asgs : List Assignment) : List LineRecord :=
  asgs.filterMap (recordOfAssignment chunk)

/-- One iteration of the classification loop: the collaborator result (or the
degraded fallback on failure), the canon merge in source order, and the
persisted records of the batch. -/
def processBatch (canon : Canon) (chunk : List ChatLine) (llm : Except Unit LLMClassOut) :
    Canon × List LineRecord :=
  let out := match llm with
    | .ok o => o
    | .error _ => fallbackOut chunk
  let c1 := applyAliases canon out.aliases
  let c2 := applyNewCats c1 out.new_categories
  let c3 := applyAssignCanon c2 out.assignments
  (c3, recordsOfBatch chunk out.assignments)

/-- A (category, subcategory) pair is present in a taxonomy. -/
def pairInCanon (canon : Canon) (category subcategory : String) : Prop :=
  ∃ e ∈ canon, e.1 = category ∧ subcategory ∈ e.2

/-- Concrete batch for the C4 counterexample: one line with an empty order
number. -/
def chunkC4 : List ChatLine := [{ order_no := "", line_no := "1", fournisseur := "F" }]

/-- Concrete collaborator output for the C5 witness. -/
def outC5 : LLMClassOut :=
  { assignments := [{ key := "7|||1", category := "Informatique", subcategory := "Postes" }],
    aliases := [], new_categories := [] }

/-! ### Published taxonomy recompute (catalog.js lines 588-597)

SELECT DISTINCT category, subcategory FROM catalog_line_map ORDER BY 1, 2,
then grouped by category in an insertion-ordered map of sets. -/

def insertPairAsc (x : String × String) : List (String × String) → List (String × String)
  | [] => [x]
  | y :: t => if y.1 < x.1 ∨ (y.1 = x.1 ∧ y.2 ≤ x.2) then y :: insertPairAsc x t else x :: y :: t

def sortPairsAsc (l : List (String × String)) : List (String × String) :=
  l.foldr insertPairAsc []

/-- Model of the terminal taxonomy recompute: the distinct pairs actually used
by line-map rows, ordered, grouped by category. -/
def taxonomyOf (records : List LineRecord) : Canon :=
  (sortPairsAsc ((records.map fun r => (r.category, r.subcategory)).dedup)).foldl
    (fun m p => addToCanon m p.1 p.2) []

/-- Concrete record for the C9 witness. -/
def recC9 : LineRecord :=
  { order_no := "1", line_no := "1", category := "Cat", subcategory := "Sub", fournisseur := "" }

/-! ### Profile aggregation (catalog.js lines 674-783, `getProfile`) -/

/-- One row of `catalog_payments`. -/
structure Payment where
  category : String
  subcategory : String
  fournisseur : String
  order_no : String
  line_no : String
  order_date : Option Int
  payment_date : Option Int
  montant : Rat
  delay_days : Option Int

structure SeriesEntry where
  delay_days : Int
  montant_total : Rat

structure PointEntry where
  delay_days : Int
  montant : Rat
  payment_date : Option Int
  order_no : String
  line_no : String

structure CumEntry where
  delay_days : Int
  cum_amount : Rat
  share : Rat

structure ProfileStats where
  n_payments : Nat
  total : Rat
  median_delay : Int
  p25 : Int
  p75 : Int

structure QuartilePoint where
  threshold : Rat
  delay_days : Int
  cum_amount : Rat

structure ProfileResult where
  series : List SeriesEntry
  points : List PointEntry
  cumulative : List CumEntry
  quartiles : List QuartilePoint
  stats : ProfileStats

def insertIntAsc (x : Int) : List Int → List Int
  | [] => [x]
  | y :: t => if y ≤ x then y :: insertIntAsc x t else x :: y :: t

def sortIntAsc (l : List Int) : List Int := l.foldr insertIntAsc []

/-- Model of `CAST(double AS INT)`: round to nearest, halves away from zero. -/
def ratRound (q : Rat) : Int :=
  if 0 ≤ q then (q + 1 / 2).floor else -((-q + 1 / 2).floor)

/-- Model of DuckDB `quantile_cont`: linear interpolation between the two
sorted values around position `q * (n - 1)`; NULL on the empty set. -/
def quantileCont (l : List Int) (q : Rat) : Option Rat :=
  match sortIntAsc l with
  | [] => none
  | sorted =>
    let n := sorted.length
    let h : Rat := q * ((n : Rat) - 1)
    let lo := h.floor
    let hi := -((-h).floor)
    let vlo : Rat := ((sorted.getD lo.toNat 0 : Int) : Rat)
    let vhi : Rat := ((sorted.getD hi.toNat 0 : Int) : Rat)
    some (vlo + (h - (lo : Rat)) * (vhi - vlo))

/-- Ordering on payment dates for the points query (ascending, NULLs last). -/
def pdLE (a b : Option Int) : Bool :=
  match a, b with
  | some u, some v => u ≤ v
  | some _, none => true
  | none, some _ => false
  | none, none => true

def insertPointAsc (x : Payment) : List Payment → List Payment
  | [] => [x]
  | y :: t => if pdLE y.payment_date x.payment_date then y :: insertPointAsc x t else x :: y :: t

def sortPointsByDate (l : List Payment) : List Payment := l.foldr insertPointAsc []

/-- The WHERE filter `subcategory = ? AND fournisseur = ?`. -/
def matchesPair (subcategory supplier : String) (p : Payment) : Bool :=
  p.subcategory == subcategory && p.fournisseur == supplier

/-- The all-zero profile returned for a pair with no matching payments. -/
def profileZero : ProfileResult :=
  { series := [], points := [], cumulative := [], quartiles := [],
    stats := { n_payments := 0, total := 0, median_delay := 0, p25 := 0, p75 := 0 } }

/-- Model of `getProfile` (catalog.js lines 674-783): parameter check, then
the delay histogram (`series`), per-payment points, cumulative-share curve,
summary statistics (count, total, continuous quantiles cast to INT with
null-to-zero coercion) and quartile landmarks, all restricted to matching
rows with a non-null delay. -/
def getProfile (payments : List Payment) (subcategory supplier : String) :
    Except String ProfileResult :=
  if subcategory = "" ∨ supplier = "" then
    .error "Paramètres requis: subcategory & supplier."
  else
    let withDelay := payments.filter fun p =>
      matchesPair subcategory supplier p && p.delay_days.isSome
    let delays := withDelay.filterMap (fun p => p.delay_days)
    let series := (sortIntAsc delays.dedup).map fun d =>
      { delay_days := d,
        montant_total := (withDelay.filter (fun p => p.delay_days == some d)).foldl
          (fun acc p => acc + p.montant) 0 : SeriesEntry }
    let points := (sortPointsByDate withDelay).map fun p =>
      { delay_days := p.delay_days.getD 0, montant := p.montant,
        payment_date := p.payment_date, order_no := p.order_no, line_no := p.line_no : PointEntry }
    let total : Rat := withDelay.foldl (fun acc p => acc + p.montant) 0
    let cumulative := (series.foldl
      (fun (st : Rat × List CumEntry) e =>
        let acc := st.1 + e.montant_total
        (acc, st.2 ++ [{ delay_days := e.delay_days, cum_amount := acc,
                         share := if total = 0 then 0 else acc / total }]))
      ((0 : Rat), ([] : List CumEntry))).2
    let stats : ProfileStats :=
      { n_payments := withDelay.length,
        total := total,
        median_delay := ((quantileCont delays (1 / 2)).map ratRound).getD 0,
        p25 := ((quantileCont delays (1 / 4)).map ratRound).getD 0,
        p75 := ((quantileCont delays (3 / 4)).map ratRound).getD 0 }
    let quartiles := ([1 / 4, 1 / 2, 3 / 4, 1] : List Rat).filterMap fun t =>
      (cumulative.find? (fun ce => t ≤ ce.share)).map fun ce =>
        { threshold := t, delay_days := ce.delay_days, cum_amount := ce.cum_amount : QuartilePoint }
    .ok { series := series, points := points, cumulative := cumulative,
          quartiles := quartiles, stats := stats }

/-- Concrete non-matching payment for the C10 witness. -/
def pmtC10 : Payment :=
  { category := "c", subcategory := "s", fournisseur := "f", order_no := "1", line_no := "1",
    order_date := none, payment_date := none, montant := 0, delay_days := none }

/-! ## Theorems

### General lemmas -/

theorem head_dropWhile_not {α : Type} (p : α → Bool) :
    ∀ (l : List α) (c : α), (l.dropWhile p).head? = some c → p c = false := by
  intro l
  induction l with
  | nil => intro c h; simp [List.dropWhile] at h
  | cons a t ih =>
    intro c h
    by_cases hp : p a
    · rw [List.dropWhile_cons_of_pos hp] at h
      exact ih c h
    · rw [List.dropWhile_cons_of_neg hp] at h
      simp at h
      subst h
      exact Bool.eq_false_iff.mpr hp

theorem mem_dropWhile_of_mem {α : Type} (p : α → Bool) (l : List α) (c : α)
    (h : c ∈ l.dropWhile p) : c ∈ l :=
  (List.dropWhile_sublist p (l := l)).mem h

theorem optBothSwap {α : Type} (x y : Option α) :
    ((y.isSome = true ∧ x.isSome = true) ∧ x = y) ↔ ∃ k, x = some k ∧ y = some k := by
  cases x <;> cases y <;> simp
  exact eq_comm

theorem optBothStraight {α : Type} (x y : Option α) :
    ((x.isSome = true ∧ y.isSome = true) ∧ x = y) ↔ ∃ k, x = some k ∧ y = some k := by
  cases x <;> cases y <;> simp
  exact eq_comm

theorem lineJoinIff (a d : LineKeys) :
    lineJoin a d = true ↔
      (∃ k, a.alnum = some k ∧ d.alnum = some k) ∨
      (∃ k, a.num = some k ∧ d.num = some k) ∨
      a.raw = d.raw ∨
      (∃ n, a.int = some n ∧ d.int = some n) ∨
      (d.alnum = none ∧ d.num = none ∧ d.int = none) := by
  simp only [lineJoin, Bool.or_eq_true, Bool.and_eq_true, beq_iff_eq, optBothSwap,
    optBothStraight]
  simp only [or_assoc, and_assoc]

/-! ### Sorting and greedy-selection lemmas -/

theorem mem_insertDesc (key : ScoredTable → Nat) (x : ScoredTable) :
    ∀ (l : List ScoredTable) (a : ScoredTable), a ∈ insertDesc key x l ↔ a = x ∨ a ∈ l := by
  intro l
  induction l with
  | nil => intro a; simp [insertDesc]
  | cons y t ih =>
    intro a
    unfold insertDesc
    by_cases h : key x < key y
    · rw [if_pos h, List.mem_cons, ih a, List.mem_cons]
      tauto
    · rw [if_neg h, List.mem_cons, List.mem_cons]

theorem sorted_insertDesc (key : ScoredTable → Nat) (x : ScoredTable) :
    ∀ (l : List ScoredTable), l.Pairwise (fun a b => key b ≤ key a) →
      (insertDesc key x l).Pairwise (fun a b => key b ≤ key a) := by
  intro l
  induction l with
  | nil => intro _; simp [insertDesc]
  | cons y t ih =>
    intro hp
    rcases List.pairwise_cons.mp hp with ⟨hy, ht⟩
    unfold insertDesc
    by_cases h : key x < key y
    · rw [if_pos h]
      refine List.pairwise_cons.mpr ⟨?_, ih ht⟩
      intro b hb
      rcases (mem_insertDesc key x t b).mp hb with rfl | hbt
      · exact Nat.le_of_lt h
      · exact hy b hbt
    · rw [if_neg h]
      refine List.pairwise_cons.mpr ⟨?_, hp⟩
      intro b hb
      rcases List.mem_cons.mp hb with rfl | hbt
      · exact Nat.le_of_not_lt h
      · exact Nat.le_trans (hy b hbt) (Nat.le_of_not_lt h)

theorem mem_sortDescBy (key : ScoredTable → Nat) (l : List ScoredTable) (a : ScoredTable) :
    a ∈ sortDescBy key l ↔ a ∈ l := by
  induction l with
  | nil => simp [sortDescBy]
  | cons y t ih =>
    unfold sortDescBy at ih ⊢
    simp only [List.foldr_cons, mem_insertDesc, ih, List.mem_cons]

theorem sorted_sortDescBy (key : ScoredTable → Nat) (l : List ScoredTable) :
    (sortDescBy key l).Pairwise (fun a b => key b ≤ key a) := by
  induction l with
  | nil => simp [sortDescBy]
  | cons y t ih =>
    unfold sortDescBy at ih ⊢
    exact sorted_insertDesc key y _ ih

theorem find_max (key : ScoredTable → Nat) (p : ScoredTable → Bool) :
    ∀ (l : List ScoredTable), l.Pairwise (fun a b => key b ≤ key a) →
      ∀ (x : ScoredTable), l.find? p = some x →
        p x = true ∧ ∀ y ∈ l, p y = true → key y ≤ key x := by
  intro l
  induction l with
  | nil => intro _ x h; simp [List.find?] at h
  | cons a t ih =>
    intro hp x h
    rcases List.pairwise_cons.mp hp with ⟨ha, ht⟩
    by_cases hpa : p a
    · rw [List.find?_cons_of_pos _ hpa] at h
      injection h with h
      subst h
      refine ⟨hpa, ?_⟩
      intro y hy _
      rcases List.mem_cons.mp hy with rfl | hyt
      · exact Nat.le_refl _
      · exact ha y hyt
    · rw [List.find?_cons_of_neg _ (by simpa using hpa)] at h
      rcases ih ht x h with ⟨hpx, hmax⟩
      refine ⟨hpx, ?_⟩
      intro y hy hpy
      rcases List.mem_cons.mp hy with rfl | hyt
      · exact absurd hpy (by simpa using hpa)
      · exact hmax y hyt hpy

theorem takeBest_max (key : ScoredTable → Nat) (used : List String) (scored : List ScoredTable)
    (x : ScoredTable) (h : takeBest key used (sortDescBy key scored) = some x) :
    x ∈ scored ∧ used.contains x.t = false ∧ 0 < key x ∧
      ∀ y ∈ scored, used.contains y.t = false → key y ≤ key x := by
  have hsorted := sorted_sortDescBy key scored
  rcases find_max key _ _ hsorted x h with ⟨hpx, hmax⟩
  have hmem : x ∈ scored := (mem_sortDescBy key scored x).mp (List.mem_of_find?_eq_some h)
  simp only [Bool.and_eq_true, Bool.not_eq_true', decide_eq_true_eq] at hpx
  refine ⟨hmem, hpx.1, hpx.2, ?_⟩
  intro y hy hyu
  by_cases hky : 0 < key y
  · refine hmax y ((mem_sortDescBy key scored y).mpr hy) ?_
    rw [hyu]
    simp [hky]
  · omega

theorem takeBest_none (key : ScoredTable → Nat) (used : List String) (scored : List ScoredTable)
    (h : takeBest key used (sortDescBy key scored) = none) :
    ∀ y ∈ scored, used.contains y.t = false → key y = 0 := by
  intro y hy hyu
  have hb := List.find?_eq_none.mp h y ((mem_sortDescBy key scored y).mpr hy)
  simp only [Bool.and_eq_true, Bool.not_eq_true', decide_eq_true_eq, not_and] at hb
  have := hb hyu
  omega

/-! ### Score-fold and found-lookup lemmas -/

theorem foldl_scoreStep_score (schema : Schema) (table : String) :
    ∀ (groups : List (String × List String)) (init : RoleScore),
      (groups.foldl (scoreStep schema table) init).score =
        init.score + 2 * groups.countP (fun kv => (resolveByAliases schema table kv.2).isSome) := by
  intro groups
  induction groups with
  | nil => intro init; simp
  | cons kv rest ih =>
    intro init
    rw [List.foldl_cons, ih, List.countP_cons]
    unfold scoreStep
    cases h : resolveByAliases schema table kv.2 <;> simp [h] <;> omega

theorem foldl_scoreStep_found (schema : Schema) (table : String) :
    ∀ (groups : List (String × List String)) (init : RoleScore),
      (groups.foldl (scoreStep schema table) init).found =
        init.found ++ foundOf schema table groups := by
  intro groups
  induction groups with
  | nil => intro init; simp [foundOf]
  | cons kv rest ih =>
    intro init
    rw [List.foldl_cons, ih]
    unfold foundOf
    rw [List.filterMap_cons]
    unfold scoreStep
    cases h : resolveByAliases schema table kv.2 <;> simp [h, foundOf]

theorem alookup_foundOf_absent (schema : Schema) (table : String) (k : String) :
    ∀ (groups : List (String × List String)), (∀ kv ∈ groups, kv.1 ≠ k) →
      alookup k (foundOf schema table groups) = none := by
  intro groups
  induction groups with
  | nil => intro _; simp [foundOf, alookup]
  | cons kv rest ih =>
    intro hk
    unfold foundOf
    rw [List.filterMap_cons]
    have hne : kv.1 ≠ k := hk kv (List.mem_cons_self kv rest)
    have hrest : alookup k (foundOf schema table rest) = none :=
      ih (fun e he => hk e (List.mem_cons_of_mem kv he))
    cases h : resolveByAliases schema table kv.2 with
    | none => exact hrest
    | some col =>
      simp only [Option.map_some']
      unfold alookup
      rw [if_neg hne]
      exact hrest

theorem alookup_foundOf_none (schema : Schema) (table : String) (k : String) :
    ∀ (groups : List (String × List String)),
      (∀ kv ∈ groups, kv.1 = k → resolveByAliases schema table kv.2 = none) →
      alookup k (foundOf schema table groups) = none := by
  intro groups
  induction groups with
  | nil => intro _; simp [foundOf, alookup]
  | cons kv rest ih =>
    intro hk
    unfold foundOf
    rw [List.filterMap_cons]
    have hrest : alookup k (foundOf schema table rest) = none :=
      ih (fun e he => hk e (List.mem_cons_of_mem kv he))
    by_cases hkk : kv.1 = k
    · rw [hk kv (List.mem_cons_self kv rest) hkk]
      exact hrest
    · cases hres : resolveByAliases schema table kv.2 with
      | none => exact hrest
      | some col =>
        simp only [Option.map_some']
        unfold alookup
        rw [if_neg hkk]
        exact hrest

theorem alookup_foundOf_present (schema : Schema) (table : String) (k : String) :
    ∀ (groups : List (String × List String)) (als : List String),
      alookup k groups = some als → (∀ kv ∈ groups, kv.1 = k → kv.2 = als) →
      alookup k (foundOf schema table groups) = resolveByAliases schema table als := by
  intro groups
  induction groups with
  | nil => intro als h; simp [alookup] at h
  | cons kv rest ih =>
    intro als h huniq
    unfold foundOf
    rw [List.filterMap_cons]
    by_cases hkk : kv.1 = k
    · have hals : kv.2 = als := huniq kv (List.mem_cons_self kv rest) hkk
      subst hals
      cases hres : resolveByAliases schema table kv.2 with
      | none =>
        simp only [Option.map_none']
        refine alookup_foundOf_none schema table k rest ?_
        intro e he hek
        rw [huniq e (List.mem_cons_of_mem kv he) hek]
        exact hres
      | some col =>
        simp only [Option.map_some']
        unfold alookup
        rw [if_pos hkk]
    · unfold alookup at h
      rw [if_neg hkk] at h
      have hrest := ih als h (fun e he => huniq e (List.mem_cons_of_mem kv he))
      cases hres : resolveByAliases schema table kv.2 with
      | none => exact hrest
      | some col =>
        simp only [Option.map_some']
        unfold alookup
        rw [if_neg hkk]
        exact hrest

/-! ### Closed-form role scores -/

theorem scoreAchatsEq (schema : Schema) (t : String) :
    (scoreTableForRole schema t achatsAliases).score =
      2 * ((achatsAliases.filter (fun kv => scoringKeys.contains kv.1)).countP
            (fun kv => (resolveByAliases schema t kv.2).isSome))
      + (if (resolveByAliases schema t (aliasStrings achatsAliases "desc_cmd")).isSome
            || (resolveByAliases schema t (aliasStrings achatsAliases "desc_line")).isSome
         then 1 else 0) := by
  have hfound := foldl_scoreStep_found schema t
    (achatsAliases.filter (fun kv => scoringKeys.contains kv.1)) { score := 0, found := [] }
  have hscore := foldl_scoreStep_score schema t
    (achatsAliases.filter (fun kv => scoringKeys.contains kv.1)) { score := 0, found := [] }
  simp only [scoreTableForRole]
  rw [hscore, hfound]
  simp only [List.nil_append]
  rw [alookup_foundOf_absent schema t "montant" _ (by decide)]
  rw [alookup_foundOf_absent schema t "date_pay" _ (by decide)]
  rw [alookup_foundOf_present schema t "desc_cmd" _ (aliasStrings achatsAliases "desc_cmd")
        (by decide) (by decide)]
  rw [alookup_foundOf_present schema t "desc_line" _ (aliasStrings achatsAliases "desc_line")
        (by decide) (by decide)]
  simp only [Option.isSome_none, Bool.false_eq_true, if_false]
  by_cases hdesc : ((resolveByAliases schema t (aliasStrings achatsAliases "desc_cmd")).isSome
      || (resolveByAliases schema t (aliasStrings achatsAliases "desc_line")).isSome) = true
  · rw [if_pos hdesc, if_pos hdesc]
    omega
  · rw [if_neg hdesc, if_neg hdesc]
    omega

theorem scoreDecsEq (schema : Schema) (t : String) :
    (scoreTableForRole schema t decsAliases).score =
      2 * ((decsAliases.filter (fun kv => scoringKeys.contains kv.1)).countP
            (fun kv => (resolveByAliases schema t kv.2).isSome))
      + (if (resolveByAliases schema t (aliasStrings decsAliases "montant")).isSome then 2 else 0)
      + (if (resolveByAliases schema t (aliasStrings decsAliases "date_pay")).isSome
         then 1 else 0) := by
  have hfound := foldl_scoreStep_found schema t
    (decsAliases.filter (fun kv => scoringKeys.contains kv.1)) { score := 0, found := [] }
  have hscore := foldl_scoreStep_score schema t
    (decsAliases.filter (fun kv => scoringKeys.contains kv.1)) { score := 0, found := [] }
  simp only [scoreTableForRole]
  rw [hscore, hfound]
  simp only [List.nil_append]
  rw [alookup_foundOf_present schema t "montant" _ (aliasStrings decsAliases "montant")
        (by decide) (by decide)]
  rw [alookup_foundOf_present schema t "date_pay" _ (aliasStrings decsAliases "date_pay")
        (by decide) (by decide)]
  rw [alookup_foundOf_absent schema t "desc_cmd" _ (by decide)]
  rw [alookup_foundOf_absent schema t "desc_line" _ (by decide)]
  simp only [Option.isSome_none, Bool.false_eq_true, if_false, Bool.or_self]
  by_cases hm : (resolveByAliases schema t (aliasStrings decsAliases "montant")).isSome = true <;>
    by_cases hd : (resolveByAliases schema t (aliasStrings decsAliases "date_pay")).isSome = true <;>
      simp [hm, hd]

theorem scoreDetailsEq (schema : Schema) (t : String) :
    (scoreTableForRole schema t detailsAliases).score =
      2 * ((detailsAliases.filter (fun kv => scoringKeys.contains kv.1)).countP
            (fun kv => (resolveByAliases schema t kv.2).isSome))
      + (if (resolveByAliases schema t (aliasStrings detailsAliases "desc_line")).isSome
         then 1 else 0) := by
  have hfound := foldl_scoreStep_found schema t
    (detailsAliases.filter (fun kv => scoringKeys.contains kv.1)) { score := 0, found := [] }
  have hscore := foldl_scoreStep_score schema t
    (detailsAliases.filter (fun kv => scoringKeys.contains kv.1)) { score := 0, found := [] }
  simp only [scoreTableForRole]
  rw [hscore, hfound]
  simp only [List.nil_append]
  rw [alookup_foundOf_absent schema t "montant" _ (by decide)]
  rw [alookup_foundOf_absent schema t "date_pay" _ (by decide)]
  rw [alookup_foundOf_absent schema t "desc_cmd" _ (by decide)]
  rw [alookup_foundOf_present schema t "desc_line" _ (aliasStrings detailsAliases "desc_line")
        (by decide) (by decide)]
  simp only [Option.isSome_none, Bool.false_eq_true, if_false, Bool.false_or]
  by_cases hd : (resolveByAliases schema t (aliasStrings detailsAliases "desc_line")).isSome = true <;>
    simp [hd]

/-! ### Greedy-pick structure lemmas -/

theorem pickCore_bestA_eq (scored : List ScoredTable) :
    (pickCore scored).bestA = takeBest achatsKey [] (sortDescBy achatsKey scored) := rfl

theorem pickCore_bestD_eq (scored : List ScoredTable) :
    (pickCore scored).bestD =
      takeBest decsKey (usedOfOpt ((pickCore scored).bestA)) (sortDescBy decsKey scored) := rfl

theorem pickCore_bestT_eq (scored : List ScoredTable) :
    (pickCore scored).bestT =
      takeBest detailsKey (usedOfOpt ((pickCore scored).bestA) ++ usedOfOpt ((pickCore scored).bestD))
        (sortDescBy detailsKey scored) := rfl

theorem mem_scoreAll (schema : Schema) (x : ScoredTable) (h : x ∈ scoreAll schema) :
    x.achats = scoreTableForRole schema x.t achatsAliases ∧
    x.decs = scoreTableForRole schema x.t decsAliases ∧
    x.details = scoreTableForRole schema x.t detailsAliases := by
  simp only [scoreAll, List.mem_map] at h
  obtain ⟨t, ht, rfl⟩ := h
  exact ⟨rfl, rfl, rfl⟩

theorem scoreAll_mem_of_table (schema : Schema) (t : String) (h : t ∈ schema.map Prod.fst) :
    ({ t := t, achats := scoreTableForRole schema t achatsAliases,
       decs := scoreTableForRole schema t decsAliases,
       details := scoreTableForRole schema t detailsAliases } : ScoredTable) ∈ scoreAll schema := by
  unfold scoreAll
  exact List.mem_map_of_mem _ h

theorem contains_singleton_eq_false (s v : String) : ([v].contains s = false) ↔ s ≠ v := by
  simp

theorem contains_pair_eq_false (s v w : String) :
    (([v] ++ [w]).contains s = false) ↔ (s ≠ v ∧ s ≠ w) := by
  simp [not_or]

/-! ### Score bounds for the C2 situation -/

theorem achatsNeeded_eq :
    achatsAliases.filter (fun kv => scoringKeys.contains kv.1) =
      [("order_no", aliasStrings achatsAliases "order_no"),
       ("line_no", aliasStrings achatsAliases "line_no"),
       ("type_ligne", aliasStrings achatsAliases "type_ligne"),
       ("desc_cmd", aliasStrings achatsAliases "desc_cmd"),
       ("desc_line", aliasStrings achatsAliases "desc_line"),
       ("date_cmd", aliasStrings achatsAliases "date_cmd")] := by
  decide

theorem achats_score_le_of_no_desc (schema : Schema) (t1 : String)
    (h1 : resolveByAliases schema t1 (aliasStrings achatsAliases "desc_cmd") = none)
    (h2 : resolveByAliases schema t1 (aliasStrings achatsAliases "desc_line") = none)
    (h3 : resolveByAliases schema t1 (aliasStrings achatsAliases "type_ligne") = none) :
    (scoreTableForRole schema t1 achatsAliases).score ≤ 6 := by
  rw [scoreAchatsEq, achatsNeeded_eq]
  simp only [List.countP_cons, List.countP_nil, h1, h2, h3, Option.isSome_none,
    Bool.false_eq_true, if_false, Bool.or_self]
  by_cases ho : (resolveByAliases schema t1 (aliasStrings achatsAliases "order_no")).isSome = true <;>
    by_cases hl : (resolveByAliases schema t1 (aliasStrings achatsAliases "line_no")).isSome = true <;>
      by_cases hd : (resolveByAliases schema t1 (aliasStrings achatsAliases "date_cmd")).isSome = true <;>
        simp [ho, hl, hd]

theorem achats_score_ge_of_order_line_desc (schema : Schema) (t2 : String)
    (h1 : (resolveByAliases schema t2 (aliasStrings achatsAliases "order_no")).isSome = true)
    (h2 : (resolveByAliases schema t2 (aliasStrings achatsAliases "line_no")).isSome = true)
    (h3 : (resolveByAliases schema t2 (aliasStrings achatsAliases "desc_cmd")).isSome = true) :
    7 ≤ (scoreTableForRole schema t2 achatsAliases).score := by
  rw [scoreAchatsEq, achatsNeeded_eq]
  simp only [List.countP_cons, List.countP_nil, h1, h2, h3, Bool.true_or, if_true]
  by_cases ht : (resolveByAliases schema t2 (aliasStrings achatsAliases "type_ligne")).isSome = true <;>
    by_cases hd : (resolveByAliases schema t2 (aliasStrings achatsAliases "desc_line")).isSome = true <;>
      by_cases hc : (resolveByAliases schema t2 (aliasStrings achatsAliases "date_cmd")).isSome = true <;>
        simp [ht, hd, hc]

/-! ### Canonical-taxonomy lemmas -/

theorem pairInCanon_cons (e : String × List String) (l : Canon) (c s : String) :
    pairInCanon (e :: l) c s ↔ (e.1 = c ∧ s ∈ e.2) ∨ pairInCanon l c s := by
  simp only [pairInCanon, List.mem_cons]
  constructor
  · rintro ⟨f, (rfl | hf), h1, h2⟩
    · exact Or.inl ⟨h1, h2⟩
    · exact Or.inr ⟨f, hf, h1, h2⟩
  · rintro (⟨h1, h2⟩ | ⟨f, hf, h1, h2⟩)
    · exact ⟨e, Or.inl rfl, h1, h2⟩
    · exact ⟨f, Or.inr hf, h1, h2⟩

theorem mem_ite_pushed (e2 : List String) (b u : String) :
    (u ∈ (if e2.contains b then e2 else e2 ++ [b])) ↔ (u ∈ e2 ∨ u = b) := by
  by_cases hc : e2.contains b
  · rw [if_pos hc]
    have hb : b ∈ e2 := by
      simpa using hc
    constructor
    · exact Or.inl
    · rintro (h | rfl)
      · exact h
      · exact hb
  · rw [if_neg hc]
    simp

theorem pairInCanon_addToCanon (a b c s : String) :
    ∀ (canon : Canon),
      pairInCanon (addToCanon canon a b) c s ↔ pairInCanon canon c s ∨ (a = c ∧ b = s) := by
  intro canon
  induction canon with
  | nil =>
    simp only [addToCanon]
    rw [pairInCanon_cons]
    simp only [pairInCanon, List.not_mem_nil, false_and, exists_const, or_false, false_or,
      List.mem_singleton]
    constructor
    · rintro ⟨h1, h2⟩
      exact ⟨h1, h2.symm⟩
    · rintro ⟨h1, h2⟩
      exact ⟨h1, h2.symm⟩
  | cons e rest ih =>
    simp only [addToCanon]
    by_cases h : e.1 = a
    · rw [if_pos h]
      rw [pairInCanon_cons, pairInCanon_cons]
      constructor
      · rintro (⟨h1, h2⟩ | hr)
        · rcases (mem_ite_pushed e.2 b s).mp h2 with hs | rfl
          · exact Or.inl (Or.inl ⟨h1, hs⟩)
          · exact Or.inr ⟨h.symm.trans h1, rfl⟩
        · exact Or.inl (Or.inr hr)
      · rintro ((⟨h1, h2⟩ | hr) | ⟨h1, h2⟩)
        · exact Or.inl ⟨h1, (mem_ite_pushed e.2 b s).mpr (Or.inl h2)⟩
        · exact Or.inr hr
        · exact Or.inl ⟨h.trans h1, (mem_ite_pushed e.2 b s).mpr (Or.inr h2.symm)⟩
    · rw [if_neg h]
      rw [pairInCanon_cons, pairInCanon_cons, ih]
      tauto

theorem pairInCanon_ensureInCanon_mono (canon : Canon) (x y c s : String)
    (h : pairInCanon canon c s) : pairInCanon (ensureInCanon canon x y) c s := by
  unfold ensureInCanon
  by_cases he : x = "" ∨ y = ""
  · rw [if_pos he]; exact h
  · rw [if_neg he]
    exact (pairInCanon_addToCanon x y c s canon).mpr (Or.inl h)

theorem pairInCanon_ensureInCanon_self (canon : Canon) (x y : String)
    (hx : x ≠ "") (hy : y ≠ "") : pairInCanon (ensureInCanon canon x y) x y := by
  unfold ensureInCanon
  rw [if_neg (by tauto)]
  exact (pairInCanon_addToCanon x y x y canon).mpr (Or.inr ⟨rfl, rfl⟩)

theorem pairInCanon_applyAssignCanon_mono (c s : String) :
    ∀ (asgs : List Assignment) (canon : Canon), pairInCanon canon c s →
      pairInCanon (applyAssignCanon canon asgs) c s := by
  intro asgs
  induction asgs with
  | nil => intro canon h; exact h
  | cons asg rest ih =>
    intro canon h
    unfold applyAssignCanon
    rw [List.foldl_cons]
    apply ih
    by_cases hc : jsTrim asg.category ≠ "" ∧ jsTrim asg.subcategory ≠ ""
    · simp only [if_pos hc]
      exact pairInCanon_ensureInCanon_mono canon _ _ c s h
    · simp only [if_neg hc]
      exact h

theorem pairInCanon_applyAssignCanon_of_mem :
    ∀ (asgs : List Assignment) (canon : Canon) (asg : Assignment), asg ∈ asgs →
      jsTrim asg.category ≠ "" → jsTrim asg.subcategory ≠ "" →
      pairInCanon (applyAssignCanon canon asgs) (jsTrim asg.category) (jsTrim asg.subcategory) := by
  intro asgs
  induction asgs with
  | nil => intro canon asg h; exact absurd h (List.not_mem_nil asg)
  | cons a rest ih =>
    intro canon asg hmem hcat hsub
    unfold applyAssignCanon
    rw [List.foldl_cons]
    rcases List.mem_cons.mp hmem with rfl | hr
    · rw [if_pos ⟨hcat, hsub⟩]
      exact pairInCanon_applyAssignCanon_mono _ _ rest _
        (pairInCanon_ensureInCanon_self canon _ _ hcat hsub)
    · exact ih _ asg hr hcat hsub

theorem processBatch_ok_fst (canon : Canon) (chunk : List ChatLine) (out : LLMClassOut) :
    (processBatch canon chunk (.ok out)).1 =
      applyAssignCanon (applyNewCats (applyAliases canon out.aliases) out.new_categories)
        out.assignments := rfl

/-! ### Key-splitting lemmas -/

theorem breakOnSep_none_of_no_pipe :
    ∀ (l : List Char), '|' ∉ l → breakOnSep sepChars l = none := by
  intro l
  induction l with
  | nil => intro _; rfl
  | cons c t ih =>
    intro h
    have hc : c ≠ '|' := fun hc => h (hc ▸ List.mem_cons_self c t)
    have hpre : ¬ (sepChars.isPrefixOf (c :: t) = true) := by
      simp [sepChars, List.isPrefixOf, Ne.symm hc]
    unfold breakOnSep
    rw [if_neg hpre, ih (fun hm => h (List.mem_cons_of_mem c hm))]

theorem breakOnSep_boundary (l : List Char) :
    ∀ (o : List Char), '|' ∉ o →
      breakOnSep sepChars (o ++ sepChars ++ l) = some (o, l) := by
  intro o
  induction o with
  | nil =>
    intro _
    have hpre : sepChars.isPrefixOf ('|' :: '|' :: '|' :: l) = true := by
      simp [sepChars, List.isPrefixOf]
    show breakOnSep sepChars ('|' :: '|' :: '|' :: l) = some ([], l)
    unfold breakOnSep
    rw [if_pos hpre]
    simp [sepChars]
  | cons c t ih =>
    intro h
    have hc : c ≠ '|' := fun hc => h (hc ▸ List.mem_cons_self c t)
    have hpre : ¬ (sepChars.isPrefixOf (c :: (t ++ sepChars ++ l)) = true) := by
      simp [sepChars, List.isPrefixOf, Ne.symm hc]
    show breakOnSep sepChars (c :: (t ++ sepChars ++ l)) = some (c :: t, l)
    unfold breakOnSep
    rw [if_neg hpre, ih (fun hm => h (List.mem_cons_of_mem c hm))]

theorem splitSepFuel_of_none (s : List Char) (h : breakOnSep sepChars s = none) :
    ∀ fuel, splitSepFuel sepChars fuel s = [s] := by
  intro fuel
  cases fuel with
  | zero => rfl
  | succ n =>
    unfold splitSepFuel
    rw [h]

theorem splitSep_boundary (o l : List Char) (ho : '|' ∉ o) (hl : '|' ∉ l) :
    splitSep sepChars (o ++ sepChars ++ l) = [o, l] := by
  unfold splitSep splitSepFuel
  rw [breakOnSep_boundary l o ho]
  show o :: splitSepFuel sepChars (o ++ sepChars ++ l).length l = [o, l]
  rw [splitSepFuel_of_none l (breakOnSep_none_of_no_pipe l hl)]

theorem string_append_data (a b : String) : (a ++ b).data = a.data ++ b.data := by
  cases a
  cases b
  rfl

theorem keyParts_keyOf (r : ChatLine) (ho : '|' ∉ r.order_no.data) (hl : '|' ∉ r.line_no.data) :
    keyParts (keyOf r) = (r.order_no, r.line_no) := by
  unfold keyParts keyOf
  have hdata : (r.order_no ++ "|||" ++ r.line_no).data =
      r.order_no.data ++ sepChars ++ r.line_no.data := by
    rw [string_append_data, string_append_data]
    rfl
  rw [hdata, splitSep_boundary r.order_no.data r.line_no.data ho hl]
  show (String.mk r.order_no.data, String.mk r.line_no.data) = _
  cases hno : r.order_no
  cases hln : r.line_no
  rfl

theorem recordOfAssignment_fallback (chunk : List ChatLine) (r : ChatLine)
    (h1 : r.order_no ≠ "") (h2 : r.line_no ≠ "")
    (h3 : '|' ∉ r.order_no.data) (h4 : '|' ∉ r.line_no.data) :
    recordOfAssignment chunk { key := keyOf r, category := "Autre", subcategory := "Autre" } =
      some { order_no := r.order_no, line_no := r.line_no, category := "Autre",
             subcategory := "Autre",
             fournisseur := ((chunk.find? (fun c => keyOf c == keyOf r)).map
               (fun c => c.fournisseur)).getD "" } := by
  unfold recordOfAssignment
  simp only [keyParts_keyOf r h3 h4]
  have hcond : ¬ (r.order_no = "" ∨ r.line_no = "" ∨ jsTrim "Autre" = "" ∨
      jsTrim "Autre" = "") := by
    push_neg
    refine ⟨h1, h2, by decide, by decide⟩
  rw [if_neg hcond]
  have htrim : jsTrim "Autre" = "Autre" := by decide
  rw [htrim]

theorem fallback_records_aux (chunk : List ChatLine) :
    ∀ (lst : List ChatLine),
      (∀ r ∈ lst, r.order_no ≠ "" ∧ r.line_no ≠ "" ∧
        '|' ∉ r.order_no.data ∧ '|' ∉ r.line_no.data) →
      (lst.filterMap (fun r => recordOfAssignment chunk
          { key := keyOf r, category := "Autre", subcategory := "Autre" })).map
          (fun rec => (rec.order_no, rec.line_no, rec.category, rec.subcategory)) =
        lst.map (fun r => (r.order_no, r.line_no, "Autre", "Autre")) := by
  intro lst
  induction lst with
  | nil => intro _; rfl
  | cons r rest ih =>
    intro h
    rcases h r (List.mem_cons_self r rest) with ⟨h1, h2, h3, h4⟩
    rw [List.filterMap_cons]
    rw [recordOfAssignment_fallback chunk r h1 h2 h3 h4]
    rw [List.map_cons, List.map_cons]
    rw [ih (fun e he => h e (List.mem_cons_of_mem r he))]

/-! ### Taxonomy recompute lemmas -/

theorem mem_insertPairAsc (x : String × String) :
    ∀ (l : List (String × String)) (a : String × String),
      a ∈ insertPairAsc x l ↔ a = x ∨ a ∈ l := by
  intro l
  induction l with
  | nil => intro a; simp [insertPairAsc]
  | cons y t ih =>
    intro a
    unfold insertPairAsc
    by_cases h : y.1 < x.1 ∨ (y.1 = x.1 ∧ y.2 ≤ x.2)
    · rw [if_pos h, List.mem_cons, ih a, List.mem_cons]
      tauto
    · rw [if_neg h, List.mem_cons, List.mem_cons]

theorem mem_sortPairsAsc (l : List (String × String)) (a : String × String) :
    a ∈ sortPairsAsc l ↔ a ∈ l := by
  induction l with
  | nil => simp [sortPairsAsc]
  | cons y t ih =>
    unfold sortPairsAsc at ih ⊢
    rw [List.foldr_cons, mem_insertPairAsc, ih, List.mem_cons]

theorem pairInCanon_foldl_addToCanon (c s : String) :
    ∀ (ps : List (String × String)) (m : Canon),
      pairInCanon (ps.foldl (fun m2 p => addToCanon m2 p.1 p.2) m) c s ↔
        pairInCanon m c s ∨ (c, s) ∈ ps := by
  intro ps
  induction ps with
  | nil => intro m; simp
  | cons p rest ih =>
    intro m
    rw [List.foldl_cons, ih, pairInCanon_addToCanon, List.mem_cons]
    constructor
    · rintro ((hm | ⟨hc, hs⟩) | hr)
      · exact Or.inl hm
      · exact Or.inr (Or.inl (by rw [Prod.ext_iff]; exact ⟨hc.symm, hs.symm⟩))
      · exact Or.inr (Or.inr hr)
    · rintro (hm | (hp | hr))
      · exact Or.inl (Or.inl hm)
      · rw [Prod.ext_iff] at hp
        exact Or.inl (Or.inr ⟨hp.1.symm, hp.2.symm⟩)
      · exact Or.inr hr

/-! ### Claim theorems -/

/-- Claim C1, counterexample: for the purchase-order cell `"PO-6903033"` and
the disbursement cell `"6903033.0"` (the VARCHAR form of the numeric value
6903033.0), both the numeric-key path (keys `6903033` and `69030330`, neither
equal nor a suffix of the other) and the alnum-key equality path (keys
`PO6903033` and `69030330`) fail, contrary to the claim. -/
theorem orderJoin_numeric_alnum_paths_fail_on_prefixed_pair :
    orderJoinNumPath "PO-6903033" "6903033.0" = false ∧
    orderJoinAlnumPath "PO-6903033" "6903033.0" = false := by
  decide

/-- Claim C1, amended: the order-number join predicate does link the two rows
even though raw-string equality fails, but via the integer-key equality path
(`normOrderInt` extracts the first digit run `6903033` on both sides), not via
the numeric-key or alnum-key paths. -/
theorem orderJoin_links_prefixed_pair_via_integer_path :
    orderJoin "PO-6903033" "6903033.0" = true ∧
    orderJoinIntPath "PO-6903033" "6903033.0" = true ∧
    orderJoinRawPath "PO-6903033" "6903033.0" = false := by
  decide

/-- Claim C3, counterexample: the claim asserts that the raw value `"0"`
yields the numeric key `"0"`; in the code, stripping leading zeros empties the
string and `NULLIF` turns it into SQL NULL ("no value"). -/
theorem normNum_zero_is_none :
    normNum "0".data = none ∧ ¬ normNum "0".data = some "0".data := by
  decide

/-- Claim C3, amended: for every raw identifier value, the numeric join key is
either the distinguished "no value" result (SQL NULL) or a nonempty string of
digits whose first character is not a zero — with no exception: the input
`"0"` also yields "no value". -/
theorem normNum_none_or_digits_no_leading_zero (s : String) :
    normNum s.data = none ∨
      ∃ t, normNum s.data = some t ∧ t ≠ [] ∧ (∀ c ∈ t, c.isDigit = true) ∧
        t.head? ≠ some '0' := by
  unfold normNum
  set t := (s.data.filter Char.isDigit).dropWhile (fun c => c == '0') with ht
  by_cases hemp : t.isEmpty
  · left; simp [hemp]
  · right
    refine ⟨t, by simp [hemp], ?_, ?_, ?_⟩
    · intro hnil; rw [hnil] at hemp; simp at hemp
    · intro c hc
      have hmem : c ∈ s.data.filter Char.isDigit := mem_dropWhile_of_mem _ _ _ (ht ▸ hc)
      exact (List.mem_filter.mp hmem).2
    · intro hhead
      have := head_dropWhile_not (fun c => c == '0') (s.data.filter Char.isDigit) '0'
        (ht ▸ hhead)
      simp at this

/-- Claim C8: the line-number join predicate holds iff the alnum line keys are
both present and equal, or the numeric line keys are both present and equal,
or the raw line strings are equal, or the integer line keys are both present
and equal, or the disbursement side has no alnum, numeric or integer line key
at all — and in that last case the disbursement matches every purchase-order
line. -/
theorem lineJoin_characterization (a d : String) :
    (lineJoin (lineKeysOf a) (lineKeysOf d) = true ↔
      (∃ k, normAlnum a.data = some k ∧ normAlnum d.data = some k) ∨
      (∃ k, normNum a.data = some k ∧ normNum d.data = some k) ∨
      a = d ∨
      (∃ n, normLineInt a.data = some n ∧ normLineInt d.data = some n) ∨
      (normAlnum d.data = none ∧ normNum d.data = none ∧ normLineInt d.data = none)) ∧
    ((normAlnum d.data = none ∧ normNum d.data = none ∧ normLineInt d.data = none) →
      ∀ a2 : String, lineJoin (lineKeysOf a2) (lineKeysOf d) = true) := by
  constructor
  · exact lineJoinIff (lineKeysOf a) (lineKeysOf d)
  · intro h a2
    rcases h with ⟨h1, h2, h3⟩
    exact (lineJoinIff (lineKeysOf a2) (lineKeysOf d)).mpr
      (Or.inr (Or.inr (Or.inr (Or.inr ⟨h1, h2, h3⟩))))

/-- Claim C8, witness: a disbursement line cell `"--"` has no alnum, numeric
or integer key, so it joins with the purchase-order line `"1"`. -/
theorem lineJoin_characterization_witness :
    lineJoin (lineKeysOf "1") (lineKeysOf "--") = true :=
  (lineJoin_characterization "1" "--").2 (by decide) "1"

/-- Claim C6, counterexample: the claim says the result is null when no parse
succeeds; for the non-numeric cell `"abc"` every parse fails and the final
serial branch — a plain `CAST(e AS DOUBLE)`, not a `TRY_CAST` — raises a
conversion error instead of yielding null. -/
theorem sqlDateFromAny_abc_errors :
    sqlDateFromAny (some "abc") = .error () ∧ ¬ sqlDateFromAny (some "abc") = .ok none := by
  decide

/-- Claim C6, amended: date normalisation attempts, in order, direct date
parse, timestamp parse truncated to a date, explicit `YYYY-MM-DD`,
`DD/MM/YYYY`, `DD-MM-YYYY`, and finally the value as a spreadsheet serial
number of days added to the epoch 1899-12-30, the first success winning; a
null cell yields null, but when every parse fails on a non-null, non-numeric
value the final plain `CAST` raises a conversion error rather than yielding
null.  The inputs `"2024-05-31"`, `"31/05/2024"`, `"31-05-2024"` and the
serial number 45443 all normalize to the calendar date 2024-05-31. -/
theorem sqlDateFromAny_chain_and_examples :
    (∀ cell, sqlDateFromAny cell = dateNormChain cell) ∧
    sqlDateFromAny (some "2024-05-31") = .ok (some (civilDay (2024, 5, 31))) ∧
    sqlDateFromAny (some "31/05/2024") = .ok (some (civilDay (2024, 5, 31))) ∧
    sqlDateFromAny (some "31-05-2024") = .ok (some (civilDay (2024, 5, 31))) ∧
    sqlDateFromAny (some "45443") = .ok (some (epochSerial + 45443)) ∧
    epochSerial + 45443 = civilDay (2024, 5, 31) ∧
    sqlDateFromAny none = .ok none := by
  refine ⟨?_, by decide, by decide, by decide, by decide, by decide, by decide⟩
  intro cell
  cases cell with
  | none => rfl
  | some s =>
    unfold sqlDateFromAny dateNormChain
    cases h1 : tryCastDate s.data <;> cases h2 : tryCastTimestampAsDate s.data <;>
      cases h3 : strptimeYMD s.data <;> cases h4 : strptimeDMY '/' s.data <;>
        cases h5 : strptimeDMY '-' s.data <;>
      simp [List.findSome?, h1, h2, h3, h4, h5]

/-- Claim C2, counterexample: in `schemaC2` the table `tx` resolves an order
number, a line number, an amount and a payment date but no descriptive
column, and the competing table `ty` resolves a descriptive column
(`Objet`), yet the greedy role assignment selects `tx` for the
purchase-orders role (`tx` scores 4 against 3 for `ty`). -/
theorem pick_selects_descless_table_despite_descriptive_competitor :
    (resolveByAliases schemaC2 "tx" (aliasStrings achatsAliases "order_no")).isSome = true ∧
    (resolveByAliases schemaC2 "tx" (aliasStrings achatsAliases "line_no")).isSome = true ∧
    (resolveByAliases schemaC2 "tx" (aliasStrings decsAliases "montant")).isSome = true ∧
    (resolveByAliases schemaC2 "tx" (aliasStrings decsAliases "date_pay")).isSome = true ∧
    resolveByAliases schemaC2 "tx" (aliasStrings achatsAliases "desc_cmd") = none ∧
    resolveByAliases schemaC2 "tx" (aliasStrings achatsAliases "desc_line") = none ∧
    resolveByAliases schemaC2 "tx" (aliasStrings achatsAliases "type_ligne") = none ∧
    (resolveByAliases schemaC2 "ty" (aliasStrings achatsAliases "desc_cmd")).isSome = true ∧
    (pickCore (scoreAll schemaC2)).bestA.map (fun x => x.t) = some "tx" := by
  decide

/-- Claim C2, amended: a table `t1` with no resolvable descriptive column
(order description, line description, or line type) is never selected for the
purchase-orders role when a competing table `t2` resolves an order-number, a
line-number and an order-description column: `t1` scores at most 6 for that
role while `t2` scores at least 7, so the greedy assignment cannot pick `t1`.
A descriptive column alone is not a required tiebreaker: a competitor with
only a descriptive column can still lose (see the counterexample). -/
theorem pick_never_selects_descless_po_table (schema : Schema) (t1 t2 : String)
    (ht2 : t2 ∈ schema.map Prod.fst)
    (h1a : resolveByAliases schema t1 (aliasStrings achatsAliases "desc_cmd") = none)
    (h1b : resolveByAliases schema t1 (aliasStrings achatsAliases "desc_line") = none)
    (h1c : resolveByAliases schema t1 (aliasStrings achatsAliases "type_ligne") = none)
    (h2a : (resolveByAliases schema t2 (aliasStrings achatsAliases "order_no")).isSome = true)
    (h2b : (resolveByAliases schema t2 (aliasStrings achatsAliases "line_no")).isSome = true)
    (h2c : (resolveByAliases schema t2 (aliasStrings achatsAliases "desc_cmd")).isSome = true) :
    ((pickCore (scoreAll schema)).bestA.map (fun x => x.t == t1)).getD false = false := by
  have hcore : ∀ x, (pickCore (scoreAll schema)).bestA = some x → x.t ≠ t1 := by
    intro x hx heq
    rw [pickCore_bestA_eq] at hx
    rcases takeBest_max achatsKey [] (scoreAll schema) x hx with ⟨hmem, _, _, hmax⟩
    have hxle : achatsKey x ≤ 6 := by
      have hach := (mem_scoreAll schema x hmem).1
      unfold achatsKey
      rw [hach, heq]
      exact achats_score_le_of_no_desc schema t1 h1a h1b h1c
    have he2 := scoreAll_mem_of_table schema t2 ht2
    have h7 := achats_score_ge_of_order_line_desc schema t2 h2a h2b h2c
    have h8 : (scoreTableForRole schema t2 achatsAliases).score ≤ achatsKey x :=
      hmax _ he2 rfl
    omega
  cases hx : (pickCore (scoreAll schema)).bestA with
  | none => rfl
  | some x =>
    have hne := hcore x hx
    simp [hne]

/-- Claim C2, witness: in `schemaC2W` the competitor `tw` resolves order
number, line number and a descriptive column, so `tx` is not the table picked
for the purchase-orders role. -/
theorem pick_never_selects_descless_po_table_witness :
    ((pickCore (scoreAll schemaC2W)).bestA.map (fun x => x.t == "tx")).getD false = false :=
  pick_never_selects_descless_po_table schemaC2W "tx" "tw" (by decide) (by decide) (by decide)
    (by decide) (by decide) (by decide) (by decide)

/-- Claim C7, counterexample: the claimed score formula gives 2 points to a
table whose only column resolves the supplier field of the purchase-orders
role, but the code's `scoreTableForRole` filters the supplier field out of
scoring and gives that table a score of 0. -/
theorem claimed_role_score_differs_on_supplier_column :
    roleScoreClaimed schemaC7 "tf" achatsAliases = 2 ∧
    (scoreTableForRole schemaC7 "tf" achatsAliases).score = 0 := by
  decide

/-- Claim C7, amended: the role score equals 2 for each resolvable logical
column among the eight scoring-eligible fields (order number, line number,
order date, payment date, amount, order description, line description, line
type) — the supplier field and the details-role date-candidate field are not
scored — plus 2 if an amount column resolves, plus 1 if a payment-date column
resolves, plus 1 if an order-description or line-description column resolves
(a line-type column does not trigger the descriptive bonus); and the greedy
assignment gives the highest-scoring table with positive score to the
purchase-orders role first, then disbursements, then line-details, each time
excluding tables already claimed by an earlier role. -/
theorem role_score_formula_and_greedy (schema : Schema) :
    (∀ t, (scoreTableForRole schema t achatsAliases).score =
      2 * ((achatsAliases.filter (fun kv => scoringKeys.contains kv.1)).countP
            (fun kv => (resolveByAliases schema t kv.2).isSome))
      + (if (resolveByAliases schema t (aliasStrings achatsAliases "desc_cmd")).isSome
            || (resolveByAliases schema t (aliasStrings achatsAliases "desc_line")).isSome
         then 1 else 0)) ∧
    (∀ t, (scoreTableForRole schema t decsAliases).score =
      2 * ((decsAliases.filter (fun kv => scoringKeys.contains kv.1)).countP
            (fun kv => (resolveByAliases schema t kv.2).isSome))
      + (if (resolveByAliases schema t (aliasStrings decsAliases "montant")).isSome then 2 else 0)
      + (if (resolveByAliases schema t (aliasStrings decsAliases "date_pay")).isSome
         then 1 else 0)) ∧
    (∀ t, (scoreTableForRole schema t detailsAliases).score =
      2 * ((detailsAliases.filter (fun kv => scoringKeys.contains kv.1)).countP
            (fun kv => (resolveByAliases schema t kv.2).isSome))
      + (if (resolveByAliases schema t (aliasStrings detailsAliases "desc_line")).isSome
         then 1 else 0)) ∧
    (∀ x, (pickCore (scoreAll schema)).bestA = some x →
      x ∈ scoreAll schema ∧ 0 < achatsKey x ∧
        ∀ y ∈ scoreAll schema, achatsKey y ≤ achatsKey x) ∧
    ((pickCore (scoreAll schema)).bestA = none → ∀ y ∈ scoreAll schema, achatsKey y = 0) ∧
    (∀ a x, (pickCore (scoreAll schema)).bestA = some a →
      (pickCore (scoreAll schema)).bestD = some x →
      x ∈ scoreAll schema ∧ x.t ≠ a.t ∧ 0 < decsKey x ∧
        ∀ y ∈ scoreAll schema, y.t ≠ a.t → decsKey y ≤ decsKey x) ∧
    (∀ a d2 x, (pickCore (scoreAll schema)).bestA = some a →
      (pickCore (scoreAll schema)).bestD = some d2 →
      (pickCore (scoreAll schema)).bestT = some x →
      x ∈ scoreAll schema ∧ x.t ≠ a.t ∧ x.t ≠ d2.t ∧ 0 < detailsKey x ∧
        ∀ y ∈ scoreAll schema, y.t ≠ a.t → y.t ≠ d2.t → detailsKey y ≤ detailsKey x) := by
  refine ⟨scoreAchatsEq schema, scoreDecsEq schema, scoreDetailsEq schema, ?_, ?_, ?_, ?_⟩
  · intro x hx
    rw [pickCore_bestA_eq] at hx
    rcases takeBest_max achatsKey [] (scoreAll schema) x hx with ⟨hmem, _, hpos, hmax⟩
    exact ⟨hmem, hpos, fun y hy => hmax y hy rfl⟩
  · intro hx y hy
    rw [pickCore_bestA_eq] at hx
    exact takeBest_none achatsKey [] (scoreAll schema) hx y hy rfl
  · intro a x ha hx
    rw [pickCore_bestD_eq, ha] at hx
    rcases takeBest_max decsKey (usedOfOpt (some a)) (scoreAll schema) x hx with
      ⟨hmem, hun, hpos, hmax⟩
    refine ⟨hmem, (contains_singleton_eq_false x.t a.t).mp hun, hpos, ?_⟩
    intro y hy hyt
    exact hmax y hy ((contains_singleton_eq_false y.t a.t).mpr hyt)
  · intro a d2 x ha hd hx
    rw [pickCore_bestT_eq, ha, hd] at hx
    rcases takeBest_max detailsKey (usedOfOpt (some a) ++ usedOfOpt (some d2)) (scoreAll schema)
      x hx with ⟨hmem, hun, hpos, hmax⟩
    rcases (contains_pair_eq_false x.t a.t d2.t).mp hun with ⟨hxa, hxd⟩
    refine ⟨hmem, hxa, hxd, hpos, ?_⟩
    intro y hy hya hyd
    exact hmax y hy ((contains_pair_eq_false y.t a.t d2.t).mpr ⟨hya, hyd⟩)

/-- Claim C7, witness: in `schemaC7W` the greedy assignment selects the table
`ta` for the purchase-orders role, and it is a highest-scoring table with
positive score. -/
theorem role_score_formula_and_greedy_witness :
    c7wEntry ∈ scoreAll schemaC7W ∧ 0 < achatsKey c7wEntry ∧
      ∀ y ∈ scoreAll schemaC7W, achatsKey y ≤ achatsKey c7wEntry :=
  (role_score_formula_and_greedy schemaC7W).2.2.2.1 c7wEntry (by decide)

/-- Claim C4, counterexample: the claim says every line of a failed batch is
persisted; a batch containing a line whose order-number string is empty
produces no Line Classification Record — the insert guard drops it even
though the fallback assigned it to Autre/Autre. -/
theorem fallback_drops_empty_identifier_line :
    (processBatch [] chunkC4 (.error ())).2 = [] ∧ chunkC4.length = 1 := by
  decide

/-- Claim C4, amended: when the collaborator call fails (or its output cannot
be parsed), the fallback assigns every line of the batch to the sentinel pair
Autre/Autre and the batch still yields a result (the build proceeds); every
line whose order-number and line-number strings are nonempty and contain no
pipe character is persisted as a Line Classification Record with category and
subcategory Autre, while lines with an empty identifier are silently
dropped. -/
theorem llm_failure_fallback (canon : Canon) (chunk : List ChatLine)
    (hids : ∀ r ∈ chunk, r.order_no ≠ "" ∧ r.line_no ≠ "" ∧
      '|' ∉ r.order_no.data ∧ '|' ∉ r.line_no.data) :
    (processBatch canon chunk (.error ())).2.map
        (fun rec => (rec.order_no, rec.line_no, rec.category, rec.subcategory)) =
      chunk.map (fun r => (r.order_no, r.line_no, "Autre", "Autre")) := by
  show ((fallbackOut chunk).assignments.filterMap (recordOfAssignment chunk)).map _ = _
  unfold fallbackOut
  simp only [List.filterMap_map]
  exact fallback_records_aux chunk chunk hids

/-- Claim C4, witness: a one-line batch with well-formed identifiers is
persisted as Autre/Autre on collaborator failure. -/
theorem llm_failure_fallback_witness :
    (processBatch [] [{ order_no := "7", line_no := "1", fournisseur := "F" }]
        (.error ())).2.map
        (fun rec => (rec.order_no, rec.line_no, rec.category, rec.subcategory)) =
      [("7", "1", "Autre", "Autre")] :=
  llm_failure_fallback [] [{ order_no := "7", line_no := "1", fournisseur := "F" }]
    (by decide)

/-- Claim C5: after processing a batch with a parsed collaborator response,
every (category, subcategory) pair named by an assignment whose trimmed
category and subcategory are nonempty is present in the canonical taxonomy,
even when the pair appeared in neither the response's new categories nor the
canon accumulated before the batch: the assignment loop itself calls
`ensureInCanon` on every assignment pair. -/
theorem classification_self_healing (canon : Canon) (chunk : List ChatLine)
    (out : LLMClassOut) (asg : Assignment) (hmem : asg ∈ out.assignments)
    (hcat : jsTrim asg.category ≠ "") (hsub : jsTrim asg.subcategory ≠ "") :
    pairInCanon (processBatch canon chunk (.ok out)).1
      (jsTrim asg.category) (jsTrim asg.subcategory) := by
  rw [processBatch_ok_fst]
  exact pairInCanon_applyAssignCanon_of_mem out.assignments _ asg hmem hcat hsub

/-- Claim C5, witness: an assignment to a pair unknown to the empty canon and
absent from the response's new categories is present in the canon after the
batch. -/
theorem classification_self_healing_witness :
    pairInCanon (processBatch [] [] (.ok outC5)).1 "Informatique" "Postes" := by
  have h := classification_self_healing [] [] outC5
    { key := "7|||1", category := "Informatique", subcategory := "Postes" }
    (by decide) (by decide) (by decide)
  exact h

/-- Claim C9: the published taxonomy recomputed after the build contains a
(category, subcategory) pair exactly when some persisted Line Classification
Record uses that pair — every used pair appears and every proposed-but-unused
pair is absent. -/
theorem published_taxonomy_eq_used_pairs (records : List LineRecord) (c s : String) :
    (∃ e ∈ taxonomyOf records, e.1 = c ∧ s ∈ e.2) ↔
      ∃ r ∈ records, r.category = c ∧ r.subcategory = s := by
  unfold taxonomyOf
  show pairInCanon _ c s ↔ _
  rw [pairInCanon_foldl_addToCanon]
  simp only [pairInCanon, List.not_mem_nil, false_and, exists_const, false_or]
  rw [mem_sortPairsAsc, List.mem_dedup, List.mem_map]
  constructor
  · rintro ⟨r, hr, hp⟩
    rw [Prod.ext_iff] at hp
    exact ⟨r, hr, hp.1, hp.2⟩
  · rintro ⟨r, hr, h1, h2⟩
    exact ⟨r, hr, by rw [Prod.ext_iff]; exact ⟨h1, h2⟩⟩

/-- Claim C9, witness: the pair of a single persisted record appears in the
recomputed taxonomy. -/
theorem published_taxonomy_eq_used_pairs_witness :
    ∃ e ∈ taxonomyOf [recC9], e.1 = "Cat" ∧ "Sub" ∈ e.2 :=
  (published_taxonomy_eq_used_pairs [recC9] "Cat" "Sub").mpr
    ⟨recC9, List.mem_singleton.mpr rfl, rfl, rfl⟩

/-- Claim C10: `getProfile` fails with the missing-parameter error exactly
when the subcategory or the supplier is empty; when both are nonempty and no
payment row matches the pair, it returns the all-zero stats object with empty
series, points and cumulative lists rather than an error. -/
theorem profile_param_check_and_empty (payments : List Payment) (subcategory supplier : String) :
    ((∃ msg, getProfile payments subcategory supplier = .error msg) ↔
      (subcategory = "" ∨ supplier = "")) ∧
    (subcategory ≠ "" → supplier ≠ "" →
      (∀ p ∈ payments, ¬ (p.subcategory = subcategory ∧ p.fournisseur = supplier)) →
      getProfile payments subcategory supplier = .ok profileZero) := by
  constructor
  · by_cases hcond : subcategory = "" ∨ supplier = ""
    · constructor
      · intro _; exact hcond
      · intro _
        exact ⟨"Paramètres requis: subcategory & supplier.",
          by unfold getProfile; rw [if_pos hcond]⟩
    · constructor
      · rintro ⟨msg, hmsg⟩
        unfold getProfile at hmsg
        rw [if_neg hcond] at hmsg
        exact absurd hmsg (by simp)
      · intro h; exact absurd h hcond
  · intro hs hf hnone
    have hcond : ¬ (subcategory = "" ∨ supplier = "") := by tauto
    unfold getProfile
    rw [if_neg hcond]
    have hwd : (payments.filter fun p =>
        matchesPair subcategory supplier p && p.delay_days.isSome) = [] := by
      rw [List.filter_eq_nil_iff]
      intro p hp
      have hm : matchesPair subcategory supplier p = false := by
        unfold matchesPair
        have hne := hnone p hp
        by_cases h1 : p.subcategory = subcategory
        · by_cases h2 : p.fournisseur = supplier
          · exact absurd ⟨h1, h2⟩ hne
          · simp [h2]
        · simp [h1]
      simp [hm]
    rw [hwd]
    rfl

/-- Claim C10, witness: for nonempty parameters and a single non-matching
payment, the profile is the all-zero object. -/
theorem profile_param_check_and_empty_witness :
    getProfile [pmtC10] "a" "b" = .ok profileZero :=
  (profile_param_check_and_empty [pmtC10] "a" "b").2 (by decide) (by decide)
    (by intro p hp; simp [pmtC10] at hp; rw [hp]; decide)

end Procure
